import Mathlib

/-!
Shallow embedding of the `xorwowgen` crate: the xorwow pseudorandom
generators of `src/lib.rs` (32-bit words), `src/xorwow64.rs` (single
64-bit register word) and `src/xorwow128.rs` (two 64-bit register words),
together with proofs checking the natural-language specification against
this embedding.

Machine integers are modelled as `Nat` with explicit reduction modulo
`2^32` / `2^64` wherever the Rust code wraps (left shifts and
`wrapping_add`); right shifts and XOR never leave the range, matching the
Rust `u32`/`u64` semantics bit for bit on in-range values.
-/

/-- `2^32`, the modulus of `u32` arithmetic. -/
def W32 : Nat := 2 ^ 32

/-- `u32::MAX`. -/
def mask32 : Nat := 2 ^ 32 - 1

/-- `2^64`, the modulus of `u64` arithmetic. -/
def W64 : Nat := 2 ^ 64

/-- `u64::MAX`. -/
def mask64 : Nat := 2 ^ 64 - 1

/-- Rust `!x` on `u32` (bitwise complement). -/
def not32 (x : Nat) : Nat := x ^^^ mask32

/-- Rust `x << n` on `u32` (shift, wrapping modulo `2^32`). -/
def shl32 (x n : Nat) : Nat := (x <<< n) % W32

/-- Rust `x.wrapping_add y` on `u32`. -/
def wadd32 (x y : Nat) : Nat := (x + y) % W32

/-- Rust `!x` on `u64`. -/
def not64 (x : Nat) : Nat := x ^^^ mask64

/-- Rust `x << n` on `u64` (shift, wrapping modulo `2^64`). -/
def shl64 (x n : Nat) : Nat := (x <<< n) % W64

/-- Rust `x.wrapping_add y` on `u64`. -/
def wadd64 (x y : Nat) : Nat := (x + y) % W64

namespace Xorwowgen

/-! ## `src/lib.rs`: the 32-bit-word variants

A variant is a compile-time configuration: the length `nr` of the `u32`
state array `s`, the shift triple `(a, b, c)` fed to `impl_xorwow!`, and
the combine operator (`wrapping_add` or `bitxor`) used by
`return_u32`/`return_u64`.  The state itself is the list of the `nr`
array entries, in order. -/

structure Cfg32 where
  nr : Nat
  a : Nat
  b : Nat
  c : Nat
  xorCombine : Bool
  deriving DecidableEq

/-- `impl_xorwow!(Xorwow96, wrapping_add, 4, (10, 5, 26))`. -/
def Xorwow96 : Cfg32 := ⟨4, 10, 5, 26, false⟩

/-- `impl_xorwow!(Xorwow128, wrapping_add, 5, (5, 14, 1))`. -/
def Xorwow128 : Cfg32 := ⟨5, 5, 14, 1, false⟩

/-- `impl_xorwow!(Xorwow160, wrapping_add, 6, (2, 1, 4))`. -/
def Xorwow160 : Cfg32 := ⟨6, 2, 1, 4, false⟩

/-- `impl_xorwow!(XorwowXor96, bitxor, 4, (10, 5, 26))`. -/
def XorwowXor96 : Cfg32 := ⟨4, 10, 5, 26, true⟩

/-- `impl_xorwow!(XorwowXor128, bitxor, 5, (5, 14, 1))`. -/
def XorwowXor128 : Cfg32 := ⟨5, 5, 14, 1, true⟩

/-- `impl_xorwow!(XorwowXor160, bitxor, 6, (2, 1, 4))`. -/
def XorwowXor160 : Cfg32 := ⟨6, 2, 1, 4, true⟩

/-- The three-shift transform of `clock` (`src/lib.rs` lines 173-175):
`x ^= x >> a; x ^= x << b; x ^= y ^ (y << c)` on `u32`. -/
def xorshift32 (a b c x y : Nat) : Nat :=
  let x1 := x ^^^ (x >>> a)
  let x2 := x1 ^^^ shl32 x1 b
  x2 ^^^ (y ^^^ shl32 y c)

/-- The window-shift loop of `clock` (`src/lib.rs` lines 167-169):
`for i in (2..(nr - 1)).rev() { self.s[i] = self.s[i - 1]; }`, iterating
`i` from `nr - 2` down to `2`. -/
def windowShift (s : List Nat) : Nat → List Nat
  | 0 => s
  | 1 => s
  | n + 2 => windowShift (s.set (n + 2) (s.getD (n + 1) 0)) (n + 1)

/-- `clock` of `impl_xorwow!` (`src/lib.rs` lines 162-182): read
`x = s[nr-2]` and `y = s[0]`, shift the window, set `s[1] = y`, store the
transformed `x` into `s[0]`, and advance the Weyl counter `s[nr-1]` by
`362437` with wrapping addition. -/
def clock (cfg : Cfg32) (s : List Nat) : List Nat :=
  let x := s.getD (cfg.nr - 2) 0
  let y := s.getD 0 0
  let s1 := (windowShift s (cfg.nr - 2)).set 1 y
  let s2 := s1.set 0 (xorshift32 cfg.a cfg.b cfg.c x y)
  s2.set (cfg.nr - 1) (wadd32 (s2.getD (cfg.nr - 1) 0) 362437)

/-- The combine operator applied by `return_u32`/`return_u64`:
`bitxor` or `wrapping_add` on `u32`, by the variant's `$mod` argument. -/
def combine32 (xorC : Bool) (x y : Nat) : Nat :=
  if xorC then x ^^^ y else wadd32 x y

/-- `return_u32` (`src/lib.rs` lines 184-190): clock once, then combine
`s[0]` with the counter `s[nr-1]`.  Returns the output word paired with
the successor state. -/
def return_u32 (cfg : Cfg32) (s : List Nat) : Nat × List Nat :=
  let s1 := clock cfg s
  (combine32 cfg.xorCombine (s1.getD 0 0) (s1.getD (cfg.nr - 1) 0), s1)

/-- `return_u64` (`src/lib.rs` lines 192-199): clock once, combine `s[1]`
and `s[0]` each with the counter, and concatenate `(be << 32) | le`. -/
def return_u64 (cfg : Cfg32) (s : List Nat) : Nat × List Nat :=
  let s1 := clock cfg s
  let be := combine32 cfg.xorCombine (s1.getD 1 0) (s1.getD (cfg.nr - 1) 0)
  let le := combine32 cfg.xorCombine (s1.getD 0 0) (s1.getD (cfg.nr - 1) 0)
  ((be <<< 32) ||| le, s1)

/-- `RngCore::next_u32` (`src/lib.rs` lines 278-280) forwards to
`return_u32`. -/
def next_u32 (cfg : Cfg32) (s : List Nat) : Nat × List Nat :=
  return_u32 cfg s

/-- `RngCore::next_u64` (`src/lib.rs` lines 282-284) forwards to
`return_u64`. -/
def next_u64 (cfg : Cfg32) (s : List Nat) : Nat × List Nat :=
  return_u64 cfg s

/-- `rand_core::le::read_u32_into`: interpret a byte buffer as
little-endian `u32` words, in order. -/
def read_u32_words : List Nat → List Nat
  | b0 :: b1 :: b2 :: b3 :: rest =>
      (b0 + 256 * b1 + 65536 * b2 + 16777216 * b3) :: read_u32_words rest
  | _ => []

/-- The body of `from_seed` after `read_u32_into` (`src/lib.rs` lines
225-242): if the first `nr - 1` words are all zero, replace each of them
with `u32::MAX`, leaving the counter word untouched. -/
def from_words (nr : Nat) (state : List Nat) : List Nat :=
  if (state.take (nr - 1)).all (fun x => x == 0) then
    List.replicate (nr - 1) mask32 ++ state.drop (nr - 1)
  else
    state

/-- `SeedableRng::from_seed` (`src/lib.rs` lines 220-243). -/
def from_seed (cfg : Cfg32) (seed : List Nat) : List Nat :=
  from_words cfg.nr (read_u32_words seed)

/-- `SeedableRng::seed_from_u64` (`src/lib.rs` lines 247-263): starting
from the all-zero array, fill the first `nr - 1` entries cyclically from
`le = seed as u32` and `be = (seed >> 32) as u32` by index mod 4
(`0 → le, 1 → !le, 2 → be, 3 → !be`); the loop's
`.take($nr - 1)` leaves the final (counter) entry at its initial `0`. -/
def seed_from_u64 (cfg : Cfg32) (seed : Nat) : List Nat :=
  let be := (seed >>> 32) % W32
  let le := seed % W32
  (List.range cfg.nr).map (fun i =>
    if i < cfg.nr - 1 then
      match i % 4 with
      | 0 => le
      | 1 => not32 le
      | 2 => be
      | _ => not32 be
    else 0)

/-- The `#[derive(Default)]` constructor of `make_xorwow!`
(`src/lib.rs` line 42): the all-zero `[u32; nr]` array. -/
def default32 (cfg : Cfg32) : List Nat :=
  List.replicate cfg.nr 0

/-- "The `R - 1` shift-register words are all zero" for an `nr`-word
state. -/
def regAllZero (nr : Nat) (s : List Nat) : Prop :=
  ∀ x ∈ s.take (nr - 1), x = 0

instance (nr : Nat) (s : List Nat) : Decidable (regAllZero nr s) := by
  unfold regAllZero
  infer_instance

end Xorwowgen

namespace Xorwow64

/-! ## `src/xorwow64.rs`: one 64-bit register word plus a 64-bit counter

The state is the `[u64; 2]` array `s`, modelled as an ordered pair
`(s[0], s[1])`; `s[0]` is the single shift-register word and `s[1]` the
Weyl counter.  A variant is a shift triple plus a combine operator:
`WrapA = ((13,7,17), add)`, `WrapB = ((13,19,28), add)`,
`XorA = ((13,7,17), xor)`, `XorB = ((13,19,28), xor)`. -/

structure Cfg64 where
  a : Nat
  b : Nat
  c : Nat
  xorCombine : Bool
  deriving DecidableEq

/-- `impl_xorwow64!(WrapA, wrapping_add, (13, 7, 17))`. -/
def WrapA : Cfg64 := ⟨13, 7, 17, false⟩

/-- `impl_xorwow64!(WrapB, wrapping_add, (13, 19, 28))`. -/
def WrapB : Cfg64 := ⟨13, 19, 28, false⟩

/-- `impl_xorwow64!(XorA, bitxor, (13, 7, 17))`. -/
def XorA : Cfg64 := ⟨13, 7, 17, true⟩

/-- `impl_xorwow64!(XorB, bitxor, (13, 19, 28))`. -/
def XorB : Cfg64 := ⟨13, 19, 28, true⟩

/-- The counter increment `0x587CC7F5F9DD5` of `src/xorwow64.rs` line
108 (also used by `src/xorwow128.rs` line 71). -/
def weyl64 : Nat := 0x587CC7F5F9DD5

/-- `clock` (`src/xorwow64.rs` lines 104-109):
`s[0] ^= s[0] << a; s[0] ^= s[0] >> b; s[0] ^= s[0] << c;` then
`s[1] = s[1].wrapping_add(0x587CC7F5F9DD5)`. -/
def clock (cfg : Cfg64) (s : Nat × Nat) : Nat × Nat :=
  let a1 := s.1 ^^^ shl64 s.1 cfg.a
  let a2 := a1 ^^^ (a1 >>> cfg.b)
  let a3 := a2 ^^^ shl64 a2 cfg.c
  (a3, wadd64 s.2 weyl64)

/-- The combine operator on `u64` (`bitxor` or `wrapping_add`). -/
def combine64 (xorC : Bool) (x y : Nat) : Nat :=
  if xorC then x ^^^ y else wadd64 x y

/-- `return_u32` (`src/xorwow64.rs` lines 111-114): clock once, combine,
truncate to `u32`. -/
def return_u32 (cfg : Cfg64) (s : Nat × Nat) : Nat × (Nat × Nat) :=
  let s1 := clock cfg s
  (combine64 cfg.xorCombine s1.1 s1.2 % W32, s1)

/-- `return_u64` (`src/xorwow64.rs` lines 116-119): clock once,
combine. -/
def return_u64 (cfg : Cfg64) (s : Nat × Nat) : Nat × (Nat × Nat) :=
  let s1 := clock cfg s
  (combine64 cfg.xorCombine s1.1 s1.2, s1)

/-- `rand_core::le::read_u64_into`: interpret a byte buffer as
little-endian `u64` words, in order. -/
def read_u64_words : List Nat → List Nat
  | b0 :: b1 :: b2 :: b3 :: b4 :: b5 :: b6 :: b7 :: rest =>
      (b0 + 2^8 * b1 + 2^16 * b2 + 2^24 * b3 + 2^32 * b4 + 2^40 * b5
        + 2^48 * b6 + 2^56 * b7) :: read_u64_words rest
  | _ => []

/-- `SeedableRng::from_seed` (`src/xorwow64.rs` lines 138-148): read the
16-byte buffer as two little-endian `u64`s; if `state[0] == 0` replace it
with `u64::MAX`; `state[1]` (the counter) is taken verbatim. -/
def from_seed (seed : List Nat) : Nat × Nat :=
  let w := read_u64_words seed
  let s0 := w.getD 0 0
  let s1 := w.getD 1 0
  (if s0 = 0 then mask64 else s0, s1)

/-- `SeedableRng::seed_from_u64` (`src/xorwow64.rs` lines 150-162):
`state[0] = seed` (`u64::MAX` when the seed is zero) and
`state[1] = seed`. -/
def seed_from_u64 (seed : Nat) : Nat × Nat :=
  (if seed = 0 then mask64 else seed, seed)

end Xorwow64

namespace Xorwow128

/-! ## `src/xorwow128.rs`: two 64-bit register words plus a counter

The state is the `[u64; 3]` array `s`, modelled as the triple
`(s[0], s[1], s[2])` with `s[2]` the Weyl counter.  Both variants use the
shift triple `(23, 17, 26)`; `LargeWrap` combines by `wrapping_add`,
`LargeXor` by `bitxor`. -/

structure Cfg128 where
  a : Nat
  b : Nat
  c : Nat
  xorCombine : Bool
  deriving DecidableEq

/-- `impl_xorwow128!(LargeWrap, wrapping_add, (23, 17, 26))`. -/
def LargeWrap : Cfg128 := ⟨23, 17, 26, false⟩

/-- `impl_xorwow128!(LargeXor, bitxor, (23, 17, 26))`. -/
def LargeXor : Cfg128 := ⟨23, 17, 26, true⟩

/-- The transform of `clock` (`src/xorwow128.rs` lines 64-70) applied to
`a = s[0]` with `b = s[1]`:
`a ^= a << 23; a ^= a >> 17; a ^= b ^ (b >> 26)`. -/
def xorshift128 (abc : Nat × Nat × Nat) (a b : Nat) : Nat :=
  let a1 := a ^^^ shl64 a abc.1
  let a2 := a1 ^^^ (a1 >>> abc.2.1)
  a2 ^^^ (b ^^^ (b >>> abc.2.2))

/-- `clock` (`src/xorwow128.rs` lines 63-72): `s[0] := s[1]`, `s[1] :=`
the transformed old `s[0]`, counter `s[2]` advanced by
`0x587CC7F5F9DD5`. -/
def clock (cfg : Cfg128) (s : Nat × Nat × Nat) : Nat × Nat × Nat :=
  (s.2.1, xorshift128 (cfg.a, cfg.b, cfg.c) s.1 s.2.1,
    wadd64 s.2.2 Xorwow64.weyl64)

/-- `return_u32` (`src/xorwow128.rs` lines 74-77): clock once, combine
`s[0]` with the counter `s[2]`, truncate to `u32`. -/
def return_u32 (cfg : Cfg128) (s : Nat × Nat × Nat) :
    Nat × (Nat × Nat × Nat) :=
  let s1 := clock cfg s
  (Xorwow64.combine64 cfg.xorCombine s1.1 s1.2.2 % W32, s1)

/-- `return_u64` (`src/xorwow128.rs` lines 79-82). -/
def return_u64 (cfg : Cfg128) (s : Nat × Nat × Nat) :
    Nat × (Nat × Nat × Nat) :=
  let s1 := clock cfg s
  (Xorwow64.combine64 cfg.xorCombine s1.1 s1.2.2, s1)

/-- `SeedableRng::from_seed` (`src/xorwow128.rs` lines 99-110): read the
24-byte buffer as three little-endian `u64`s; if `state[..2] == [0, 0]`
replace both register words with `u64::MAX`; the counter `state[2]` is
taken verbatim. -/
def from_seed (seed : List Nat) : Nat × Nat × Nat :=
  let w := Xorwow64.read_u64_words seed
  let s0 := w.getD 0 0
  let s1 := w.getD 1 0
  let s2 := w.getD 2 0
  if s0 = 0 ∧ s1 = 0 then (mask64, mask64, s2) else (s0, s1, s2)

/-- `SeedableRng::seed_from_u64` (`src/xorwow128.rs` lines 112-125):
`state[0] = seed` (`u64::MAX` when zero), `state[1] = seed`,
`state[2] = !seed`. -/
def seed_from_u64 (seed : Nat) : Nat × Nat × Nat :=
  (if seed = 0 then mask64 else seed, seed, not64 seed)

end Xorwow128

/-- The successor state that claim C8 prescribes for the 128-bit
double-word variants: the spec's general step-3 transform
`x ^= x >> 23; x ^= x << 17; x ^= y ^ (y << 26)` applied to the oldest
register word `x = s[1]` with the newest `y = s[0]`, the result stored
as the new newest register word (position 0), the old newest moved to
position 1, the counter advanced.  Defined from the claim's words, to be
compared with `Xorwow128.clock`. -/
def clockC8claim (s : Nat × Nat × Nat) : Nat × Nat × Nat :=
  let x := s.2.1
  let y := s.1
  let x1 := x ^^^ (x >>> 23)
  let x2 := x1 ^^^ shl64 x1 17
  let x3 := x2 ^^^ (y ^^^ shl64 y 26)
  (x3, y, wadd64 s.2.2 Xorwow64.weyl64)

/-! ## General lemmas on the xorshift steps

Each of the three steps of a xorshift transform is injective on machine
words; what the non-degeneracy proofs need is the special case that `0`
is the only fixed-point preimage of `0`. -/

/-- A step `x ^= x >> a` with `a > 0` sends only `0` to `0`. -/
theorem xor_shr_eq_zero {a x : Nat} (ha : 0 < a)
    (h : x ^^^ (x >>> a) = 0) : x = 0 := by
  have hx : x = x >>> a := Nat.xor_eq_zero.mp h
  rw [Nat.shiftRight_eq_div_pow] at hx
  by_contra hne
  have hlt : x / 2 ^ a < x :=
    Nat.div_lt_self (Nat.pos_of_ne_zero hne) (Nat.one_lt_two_pow ha.ne')
  omega

/-- A step `z ^= z << b` on `w`-bit words with `b > 0` sends only `0`
to `0`. -/
theorem xor_shl_mod_eq_zero {w b z : Nat} (hb : 0 < b) (hz : z < 2 ^ w)
    (h : z ^^^ (z <<< b) % 2 ^ w = 0) : z = 0 := by
  have hz' : z = z * 2 ^ b % 2 ^ w := by
    have := Nat.xor_eq_zero.mp h
    rwa [Nat.shiftLeft_eq] at this
  have hmod : z * 2 ^ b ≡ z [MOD 2 ^ w] := by
    unfold Nat.ModEq
    rw [Nat.mod_eq_of_lt hz]
    exact hz'.symm
  have hle : z ≤ z * 2 ^ b :=
    Nat.le_mul_of_pos_right z (Nat.pos_pow_of_pos b (by norm_num))
  have hdvd : 2 ^ w ∣ z * 2 ^ b - z := (Nat.modEq_iff_dvd' hle).mp hmod.symm
  have hkey : z * 2 ^ b - z = z * (2 ^ b - 1) := by
    obtain ⟨k, hk⟩ := Nat.exists_eq_add_of_le (Nat.one_le_two_pow (n := b))
    rw [hk, Nat.add_sub_cancel_left, Nat.mul_add, Nat.mul_one]
    omega
  rw [hkey] at hdvd
  have hodd : Odd (2 ^ b - 1) := by
    refine Nat.Even.sub_odd Nat.one_le_two_pow ?_ odd_one
    exact (Nat.even_pow' hb.ne').mpr even_two
  have hcop : Nat.Coprime (2 ^ w) (2 ^ b - 1) :=
    Nat.Coprime.pow_left w (Nat.coprime_two_left.mpr hodd)
  exact Nat.eq_zero_of_dvd_of_lt (hcop.dvd_of_dvd_mul_right hdvd) hz

/-- Right shifts never grow a natural number. -/
theorem shiftRight_self_le (x a : Nat) : x >>> a ≤ x := by
  rw [Nat.shiftRight_eq_div_pow]
  exact Nat.div_le_self x (2 ^ a)

/-- With `y = 0`, the third step of `Xorwowgen.xorshift32` contributes nothing. -/
theorem xorshift32_y_zero (a b c x : Nat) :
    Xorwowgen.xorshift32 a b c x 0 =
      (x ^^^ (x >>> a)) ^^^ shl32 (x ^^^ (x >>> a)) b := by
  simp [Xorwowgen.xorshift32, shl32]

/-- The 32-bit xorwow transform with newest word `0` sends only `0` to
`0`: zero is excluded as a register state because it is the transform's
unique fixed point. -/
theorem xorshift32_eq_zero {a b c x : Nat} (ha : 0 < a) (hb : 0 < b)
    (hx : x < 2 ^ 32) (h : Xorwowgen.xorshift32 a b c x 0 = 0) : x = 0 := by
  rw [xorshift32_y_zero] at h
  have hx1 : x ^^^ (x >>> a) < 2 ^ 32 :=
    Nat.xor_lt_two_pow hx (lt_of_le_of_lt (shiftRight_self_le x a) hx)
  have h1 : x ^^^ (x >>> a) = 0 :=
    xor_shl_mod_eq_zero hb hx1 h
  exact xor_shr_eq_zero ha h1

/-- The state-update equation of the 4-word `clock`. -/
theorem clock4_eq (a b c : Nat) (xc : Bool) (s0 s1 s2 s3 : Nat) :
    Xorwowgen.clock ⟨4, a, b, c, xc⟩ [s0, s1, s2, s3] =
      [Xorwowgen.xorshift32 a b c s2 s0, s0, s1, wadd32 s3 362437] := by
  rfl

/-- The state-update equation of the 5-word `clock`. -/
theorem clock5_eq (a b c : Nat) (xc : Bool) (s0 s1 s2 s3 s4 : Nat) :
    Xorwowgen.clock ⟨5, a, b, c, xc⟩ [s0, s1, s2, s3, s4] =
      [Xorwowgen.xorshift32 a b c s3 s0, s0, s1, s2, wadd32 s4 362437] := by
  rfl

/-- The state-update equation of the 6-word `clock`. -/
theorem clock6_eq (a b c : Nat) (xc : Bool) (s0 s1 s2 s3 s4 s5 : Nat) :
    Xorwowgen.clock ⟨6, a, b, c, xc⟩ [s0, s1, s2, s3, s4, s5] =
      [Xorwowgen.xorshift32 a b c s4 s0, s0, s1, s2, s3, wadd32 s5 362437] := by
  rfl

/-- C1: for every 32-bit-word variant (`Xorwow96`/`Xorwow128`/`Xorwow160`
and their `XorwowXor` counterparts) and every state, `clock` reads
`x = s[nr-2]` and `y = s[0]`, shifts the window (`s[i] = s[i-1]` for `i`
from `nr-2` down to `2`, then `s[1] = y`), stores `x` transformed by
`x ^= x >> a; x ^= x << b; x ^= y ^ (y << c)` into `s[0]`, and adds the
fixed odd constant `362437` to the counter word modulo `2^32`; no other
word changes.  Stated as the complete successor-state equation for each
register length together with oddness of the counter increment. -/
theorem C1_clock32_correct :
    (∀ cfg ∈ [Xorwowgen.Xorwow96, Xorwowgen.XorwowXor96],
      ∀ s0 s1 s2 s3 : Nat,
        Xorwowgen.clock cfg [s0, s1, s2, s3] =
          [Xorwowgen.xorshift32 10 5 26 s2 s0, s0, s1, wadd32 s3 362437]) ∧
    (∀ cfg ∈ [Xorwowgen.Xorwow128, Xorwowgen.XorwowXor128],
      ∀ s0 s1 s2 s3 s4 : Nat,
        Xorwowgen.clock cfg [s0, s1, s2, s3, s4] =
          [Xorwowgen.xorshift32 5 14 1 s3 s0, s0, s1, s2, wadd32 s4 362437]) ∧
    (∀ cfg ∈ [Xorwowgen.Xorwow160, Xorwowgen.XorwowXor160],
      ∀ s0 s1 s2 s3 s4 s5 : Nat,
        Xorwowgen.clock cfg [s0, s1, s2, s3, s4, s5] =
          [Xorwowgen.xorshift32 2 1 4 s4 s0, s0, s1, s2, s3, wadd32 s5 362437]) ∧
    Odd 362437 := by
  refine ⟨?_, ?_, ?_, by decide⟩
  · intro cfg hcfg s0 s1 s2 s3
    simp only [List.mem_cons, List.not_mem_nil, or_false] at hcfg
    rcases hcfg with h | h
    · subst h; exact clock4_eq 10 5 26 false s0 s1 s2 s3
    · subst h; exact clock4_eq 10 5 26 true s0 s1 s2 s3
  · intro cfg hcfg s0 s1 s2 s3 s4
    simp only [List.mem_cons, List.not_mem_nil, or_false] at hcfg
    rcases hcfg with h | h
    · subst h; exact clock5_eq 5 14 1 false s0 s1 s2 s3 s4
    · subst h; exact clock5_eq 5 14 1 true s0 s1 s2 s3 s4
  · intro cfg hcfg s0 s1 s2 s3 s4 s5
    simp only [List.mem_cons, List.not_mem_nil, or_false] at hcfg
    rcases hcfg with h | h
    · subst h; exact clock6_eq 2 1 4 false s0 s1 s2 s3 s4 s5
    · subst h; exact clock6_eq 2 1 4 true s0 s1 s2 s3 s4 s5

/-- Witness for C1: the 160-bit addition variant's clock applied at an
explicit state. -/
theorem C1_clock32_correct_witness :
    Xorwowgen.clock Xorwowgen.Xorwow160 [1, 2, 3, 4, 5, 6] =
      [Xorwowgen.xorshift32 2 1 4 5 1, 1, 2, 3, 4, wadd32 6 362437] :=
  C1_clock32_correct.2.2.1 Xorwowgen.Xorwow160 (by simp) 1 2 3 4 5 6


/-- C3 counterexample: the claim says the counter word inherits the
cyclic scheme value at its own index (index 3 on `Xorwow96`, hence
`¬hi`).  At seed `0` the scheme value at index 3 is `¬0 = u32::MAX`, but
`seed_from_u64` leaves the counter word at `0`: the loop's
`.take($nr - 1)` excludes the counter slot. -/
theorem C3_counterexample :
    (Xorwowgen.seed_from_u64 Xorwowgen.Xorwow96 0).getD 3 0 = 0 ∧
    not32 (((0 : Nat) >>> 32) % W32) = mask32 ∧ (0 : Nat) ≠ mask32 := by
  decide

/-- C3 (amended): for every 32-bit-word variant and every u64 seed,
`seed_from_u64` fills the `R - 1` register words cyclically by index
mod 4 (`0 → lo, 1 → ¬lo, 2 → hi, 3 → ¬hi`), and the counter word is
left at its initial value `0` — the cyclic fill covers only the `R - 1`
register words, never the counter slot. -/
theorem C3_seed_from_u64_amended :
    ∀ seed : Nat,
      (∀ cfg ∈ [Xorwowgen.Xorwow96, Xorwowgen.XorwowXor96],
        Xorwowgen.seed_from_u64 cfg seed =
          [seed % W32, not32 (seed % W32), (seed >>> 32) % W32, 0]) ∧
      (∀ cfg ∈ [Xorwowgen.Xorwow128, Xorwowgen.XorwowXor128],
        Xorwowgen.seed_from_u64 cfg seed =
          [seed % W32, not32 (seed % W32), (seed >>> 32) % W32,
            not32 ((seed >>> 32) % W32), 0]) ∧
      (∀ cfg ∈ [Xorwowgen.Xorwow160, Xorwowgen.XorwowXor160],
        Xorwowgen.seed_from_u64 cfg seed =
          [seed % W32, not32 (seed % W32), (seed >>> 32) % W32,
            not32 ((seed >>> 32) % W32), seed % W32, 0]) := by
  intro seed
  refine ⟨?_, ?_, ?_⟩ <;>
    · intro cfg hcfg
      simp only [List.mem_cons, List.not_mem_nil, or_false] at hcfg
      rcases hcfg with h | h <;> (subst h; rfl)

/-- Witness for the amended C3, at seed `1234` on `Xorwow160`. -/
theorem C3_seed_from_u64_amended_witness :
    Xorwowgen.seed_from_u64 Xorwowgen.Xorwow160 1234 =
      [1234 % W32, not32 (1234 % W32), (1234 >>> 32) % W32,
        not32 ((1234 >>> 32) % W32), 1234 % W32, 0] :=
  (C3_seed_from_u64_amended 1234).2.2 Xorwowgen.Xorwow160 (by simp)

/-- C4 counterexample: on the 2-word 64-bit variants (`WrapA` etc.),
`seed_from_u64` stores the seed itself into the counter word `s[1]`, not
its bitwise complement as the claim states: at seed `5` the counter is
`5`, which differs from `!5`. -/
theorem C4_counterexample :
    (Xorwow64.seed_from_u64 5).2 = 5 ∧ not64 5 ≠ 5 := by
  decide

/-- C4 (amended): for every u64 seed, the 2-word 64-bit variants set
register word 0 to the seed (`u64::MAX` when the seed is zero) and set
the counter word to the seed itself; the 3-word variants set register
word 0 likewise, the second register word to the seed, and the counter
word to the bitwise complement of the seed.  Only the 3-word family
complements the counter. -/
theorem C4_seed_from_u64_64_amended :
    ∀ seed : Nat,
      Xorwow64.seed_from_u64 seed =
        (if seed = 0 then mask64 else seed, seed) ∧
      Xorwow128.seed_from_u64 seed =
        (if seed = 0 then mask64 else seed, seed, not64 seed) :=
  fun _ => ⟨rfl, rfl⟩

/-- C8 counterexample: at the explicit state `(1, 0, 0)` the code's
`clock` (which shifts by `<< 23`, `>> 17`, `>> 26` starting from
`a = s[0]`) disagrees with the claim's general-algorithm transform, for
both 128-bit variants. -/
theorem C8_counterexample :
    Xorwow128.clock Xorwow128.LargeWrap (1, 0, 0) ≠ clockC8claim (1, 0, 0) ∧
    Xorwow128.clock Xorwow128.LargeXor (1, 0, 0) ≠ clockC8claim (1, 0, 0) := by
  decide

/-- C8 (amended): for `LargeWrap` and `LargeXor` and every state,
`clock` reads `a = s[0]` and `b = s[1]`, moves `b` into `s[0]`, computes
`a ^= a << 23; a ^= a >> 17; a ^= b ^ (b >> 26)` — mirrored shift
directions relative to the spec's general step-3 transform — stores the
result into `s[1]`, and advances the counter by `0x587CC7F5F9DD5`. -/
theorem C8_clock128_amended :
    ∀ cfg ∈ [Xorwow128.LargeWrap, Xorwow128.LargeXor], ∀ s0 s1 s2 : Nat,
      Xorwow128.clock cfg (s0, s1, s2) =
        (s1, Xorwow128.xorshift128 (23, 17, 26) s0 s1,
          wadd64 s2 Xorwow64.weyl64) := by
  intro cfg hcfg s0 s1 s2
  simp only [List.mem_cons, List.not_mem_nil, or_false] at hcfg
  rcases hcfg with h | h <;> (subst h; rfl)

/-- Witness for the amended C8, at the state `(1, 2, 3)` on
`LargeWrap`. -/
theorem C8_clock128_amended_witness :
    Xorwow128.clock Xorwow128.LargeWrap (1, 2, 3) =
      (2, Xorwow128.xorshift128 (23, 17, 26) 1 2,
        wadd64 3 Xorwow64.weyl64) :=
  C8_clock128_amended Xorwow128.LargeWrap (by simp) 1 2 3

/-- C9 counterexample: at seed `0`, the addition-combine `Xorwow160` and
the XOR-combine `XorwowXor160` produce the same first `next_u32`
output (both `362437`, since the post-clock register word 0 is zero), so
the pair does not diverge at the first extraction for every seed. -/
theorem C9_counterexample :
    (Xorwowgen.next_u32 Xorwowgen.Xorwow160
        (Xorwowgen.seed_from_u64 Xorwowgen.Xorwow160 0)).1 =
      (Xorwowgen.next_u32 Xorwowgen.XorwowXor160
        (Xorwowgen.seed_from_u64 Xorwowgen.XorwowXor160 0)).1 := by
  decide

/-- C9 (amended): the addition-combine and XOR-combine variants of the
same register configuration, seeded identically, produce different
first extractions for some seeds — seed `3` for every 32-bit pair and
for the 128-bit pair, seed `0` for the 64-bit single-word pairs — but
not for every seed: at seed `0` each 32-bit pair's first outputs
coincide (see the counterexample). -/
theorem C9_combine_divergence_amended :
    (Xorwowgen.next_u32 Xorwowgen.Xorwow96
        (Xorwowgen.seed_from_u64 Xorwowgen.Xorwow96 3)).1 ≠
      (Xorwowgen.next_u32 Xorwowgen.XorwowXor96
        (Xorwowgen.seed_from_u64 Xorwowgen.XorwowXor96 3)).1 ∧
    (Xorwowgen.next_u32 Xorwowgen.Xorwow128
        (Xorwowgen.seed_from_u64 Xorwowgen.Xorwow128 3)).1 ≠
      (Xorwowgen.next_u32 Xorwowgen.XorwowXor128
        (Xorwowgen.seed_from_u64 Xorwowgen.XorwowXor128 3)).1 ∧
    (Xorwowgen.next_u32 Xorwowgen.Xorwow160
        (Xorwowgen.seed_from_u64 Xorwowgen.Xorwow160 3)).1 ≠
      (Xorwowgen.next_u32 Xorwowgen.XorwowXor160
        (Xorwowgen.seed_from_u64 Xorwowgen.XorwowXor160 3)).1 ∧
    (Xorwow64.return_u32 Xorwow64.WrapA (Xorwow64.seed_from_u64 0)).1 ≠
      (Xorwow64.return_u32 Xorwow64.XorA (Xorwow64.seed_from_u64 0)).1 ∧
    (Xorwow64.return_u32 Xorwow64.WrapB (Xorwow64.seed_from_u64 0)).1 ≠
      (Xorwow64.return_u32 Xorwow64.XorB (Xorwow64.seed_from_u64 0)).1 ∧
    (Xorwow128.return_u32 Xorwow128.LargeWrap
        (Xorwow128.seed_from_u64 3)).1 ≠
      (Xorwow128.return_u32 Xorwow128.LargeXor
        (Xorwow128.seed_from_u64 3)).1 := by
  decide

/-- C5: for every variant and every state, `next_u32`/`next_u64`
(forwarding to `return_u32`/`return_u64`) advance the state by exactly
one `clock` and have no other effect on it; `next_u32` returns register
word 0 combined with the counter word by the variant's combine operator
(truncated modulo `2^32` on the 64-bit-word variants), and on the
32-bit-word variants `next_u64` returns
`(combine(s[1], counter) <<< 32) ||| combine(s[0], counter)`, both
combines using the same post-clock counter value. -/
theorem C5_extraction_correct :
    (∀ cfg : Xorwowgen.Cfg32, ∀ s : List Nat,
      Xorwowgen.next_u32 cfg s =
        (Xorwowgen.combine32 cfg.xorCombine
            ((Xorwowgen.clock cfg s).getD 0 0)
            ((Xorwowgen.clock cfg s).getD (cfg.nr - 1) 0),
          Xorwowgen.clock cfg s) ∧
      Xorwowgen.next_u64 cfg s =
        (Xorwowgen.combine32 cfg.xorCombine
              ((Xorwowgen.clock cfg s).getD 1 0)
              ((Xorwowgen.clock cfg s).getD (cfg.nr - 1) 0) <<< 32 |||
            Xorwowgen.combine32 cfg.xorCombine
              ((Xorwowgen.clock cfg s).getD 0 0)
              ((Xorwowgen.clock cfg s).getD (cfg.nr - 1) 0),
          Xorwowgen.clock cfg s)) ∧
    (∀ cfg : Xorwow64.Cfg64, ∀ s : Nat × Nat,
      Xorwow64.return_u32 cfg s =
        (Xorwow64.combine64 cfg.xorCombine (Xorwow64.clock cfg s).1
            (Xorwow64.clock cfg s).2 % W32, Xorwow64.clock cfg s) ∧
      Xorwow64.return_u64 cfg s =
        (Xorwow64.combine64 cfg.xorCombine (Xorwow64.clock cfg s).1
            (Xorwow64.clock cfg s).2, Xorwow64.clock cfg s)) ∧
    (∀ cfg : Xorwow128.Cfg128, ∀ s : Nat × Nat × Nat,
      Xorwow128.return_u32 cfg s =
        (Xorwow64.combine64 cfg.xorCombine (Xorwow128.clock cfg s).1
            (Xorwow128.clock cfg s).2.2 % W32, Xorwow128.clock cfg s) ∧
      Xorwow128.return_u64 cfg s =
        (Xorwow64.combine64 cfg.xorCombine (Xorwow128.clock cfg s).1
            (Xorwow128.clock cfg s).2.2, Xorwow128.clock cfg s)) :=
  ⟨fun _ _ => ⟨rfl, rfl⟩, fun _ _ => ⟨rfl, rfl⟩, fun _ _ => ⟨rfl, rfl⟩⟩

set_option maxRecDepth 10000 in
/-- C7: a `Xorwow160` generator (160-bit register, 32-bit words,
addition combine) built by `seed_from_u64 1234` and clocked 100 times
via `next_u32` returns exactly `2581263997` on the 101st `next_u32`
call — the crate-level doctest regression value. -/
theorem C7_regression_xorwow160 :
    (Xorwowgen.next_u32 Xorwowgen.Xorwow160
        ((fun s => (Xorwowgen.next_u32 Xorwowgen.Xorwow160 s).2)^[100]
          (Xorwowgen.seed_from_u64 Xorwowgen.Xorwow160 1234))).1
      = 2581263997 := by
  decide

/-- Destructuring a list of known length 4. -/
theorem exists_list4 {α : Type} (s : List α) (h : s.length = 4) :
    ∃ a b c d, s = [a, b, c, d] := by
  obtain ⟨a, t, rfl⟩ := List.exists_of_length_succ s h
  simp only [List.length_cons, Nat.succ_inj] at h
  obtain ⟨b, t, rfl⟩ := List.exists_of_length_succ t h
  simp only [List.length_cons, Nat.succ_inj] at h
  obtain ⟨c, t, rfl⟩ := List.exists_of_length_succ t h
  simp only [List.length_cons, Nat.succ_inj] at h
  obtain ⟨d, t, rfl⟩ := List.exists_of_length_succ t h
  simp only [List.length_cons, Nat.succ_inj] at h
  rw [List.length_eq_zero.mp h]
  exact ⟨a, b, c, d, rfl⟩

/-- Destructuring a list of known length 5. -/
theorem exists_list5 {α : Type} (s : List α) (h : s.length = 5) :
    ∃ a rest, s = a :: rest ∧ rest.length = 4 := by
  obtain ⟨a, t, rfl⟩ := List.exists_of_length_succ s h
  simp only [List.length_cons, Nat.succ_inj] at h
  exact ⟨a, t, rfl, h⟩

/-- Destructuring a list of known length 6. -/
theorem exists_list6 {α : Type} (s : List α) (h : s.length = 6) :
    ∃ a rest, s = a :: rest ∧ rest.length = 5 := by
  obtain ⟨a, t, rfl⟩ := List.exists_of_length_succ s h
  simp only [List.length_cons, Nat.succ_inj] at h
  exact ⟨a, t, rfl, h⟩

/-- `from_words` never returns a state whose first `nr - 1` words are all
zero: the replacement branch writes `u32::MAX` everywhere, the other
branch is reached only when some word is already nonzero. -/
theorem from_words_not_allZero {nr : Nat} (h2 : 2 ≤ nr) (st : List Nat) :
    ¬ Xorwowgen.regAllZero nr (Xorwowgen.from_words nr st) := by
  unfold Xorwowgen.from_words
  by_cases h : (st.take (nr - 1)).all (fun x => x == 0)
  · rw [if_pos h]
    intro hz
    have hm : mask32 ∈
        (List.replicate (nr - 1) mask32 ++ st.drop (nr - 1)).take (nr - 1) := by
      rw [List.take_left' (List.length_replicate _ _)]
      exact List.mem_replicate.mpr ⟨by omega, rfl⟩
    have := hz mask32 hm
    exact absurd this (by decide)
  · rw [if_neg h]
    intro hz
    apply h
    rw [List.all_eq_true]
    intro x hx
    exact beq_iff_eq.mpr (hz x hx)

/-- `seed_from_u64` on a 4-word variant, explicitly. -/
theorem seed4_eq (a b c : Nat) (xc : Bool) (seed : Nat) :
    Xorwowgen.seed_from_u64 ⟨4, a, b, c, xc⟩ seed =
      [seed % W32, not32 (seed % W32), (seed >>> 32) % W32, 0] := by
  rfl

/-- `seed_from_u64` on a 5-word variant, explicitly. -/
theorem seed5_eq (a b c : Nat) (xc : Bool) (seed : Nat) :
    Xorwowgen.seed_from_u64 ⟨5, a, b, c, xc⟩ seed =
      [seed % W32, not32 (seed % W32), (seed >>> 32) % W32,
        not32 ((seed >>> 32) % W32), 0] := by
  rfl

/-- `seed_from_u64` on a 6-word variant, explicitly. -/
theorem seed6_eq (a b c : Nat) (xc : Bool) (seed : Nat) :
    Xorwowgen.seed_from_u64 ⟨6, a, b, c, xc⟩ seed =
      [seed % W32, not32 (seed % W32), (seed >>> 32) % W32,
        not32 ((seed >>> 32) % W32), seed % W32, 0] := by
  rfl

/-- The pair `lo, ¬lo` heads every `seed_from_u64` register fill, and
they cannot both be zero. -/
theorem lo_not_lo_ne_zero (seed : Nat) :
    ¬ (seed % W32 = 0 ∧ not32 (seed % W32) = 0) := by
  rintro ⟨h0, h1⟩
  rw [h0] at h1
  exact absurd h1 (by decide)

/-- Clock preservation of non-degeneracy, 4-word variants: if the three
register words are not all zero, they are not all zero after `clock`. -/
theorem clock4_preserves (a b c : Nat) (xc : Bool) (ha : 0 < a) (hb : 0 < b)
    (s0 s1 s2 s3 : Nat) (h2 : s2 < W32)
    (hnz : ¬ Xorwowgen.regAllZero 4 [s0, s1, s2, s3]) :
    ¬ Xorwowgen.regAllZero 4 (Xorwowgen.clock ⟨4, a, b, c, xc⟩ [s0, s1, s2, s3]) := by
  rw [clock4_eq]
  intro hz
  have hz' : ∀ x ∈ [Xorwowgen.xorshift32 a b c s2 s0, s0, s1], x = 0 := hz
  have h0 : s0 = 0 := hz' s0 (by simp)
  have h1 : s1 = 0 := hz' s1 (by simp)
  have hT : Xorwowgen.xorshift32 a b c s2 s0 = 0 := hz' _ (by simp)
  rw [h0] at hT
  have h2' : s2 = 0 := xorshift32_eq_zero ha hb h2 hT
  apply hnz
  intro x hx
  have hx' : x ∈ [s0, s1, s2] := hx
  simp only [List.mem_cons, List.not_mem_nil, or_false] at hx'
  rcases hx' with rfl | rfl | rfl
  · exact h0
  · exact h1
  · exact h2'

/-- Clock preservation of non-degeneracy, 5-word variants. -/
theorem clock5_preserves (a b c : Nat) (xc : Bool) (ha : 0 < a) (hb : 0 < b)
    (s0 s1 s2 s3 s4 : Nat) (h3 : s3 < W32)
    (hnz : ¬ Xorwowgen.regAllZero 5 [s0, s1, s2, s3, s4]) :
    ¬ Xorwowgen.regAllZero 5
      (Xorwowgen.clock ⟨5, a, b, c, xc⟩ [s0, s1, s2, s3, s4]) := by
  rw [clock5_eq]
  intro hz
  have hz' : ∀ x ∈ [Xorwowgen.xorshift32 a b c s3 s0, s0, s1, s2], x = 0 := hz
  have h0 : s0 = 0 := hz' s0 (by simp)
  have h1 : s1 = 0 := hz' s1 (by simp)
  have h2 : s2 = 0 := hz' s2 (by simp)
  have hT : Xorwowgen.xorshift32 a b c s3 s0 = 0 := hz' _ (by simp)
  rw [h0] at hT
  have h3' : s3 = 0 := xorshift32_eq_zero ha hb h3 hT
  apply hnz
  intro x hx
  have hx' : x ∈ [s0, s1, s2, s3] := hx
  simp only [List.mem_cons, List.not_mem_nil, or_false] at hx'
  rcases hx' with rfl | rfl | rfl | rfl
  · exact h0
  · exact h1
  · exact h2
  · exact h3'

/-- Clock preservation of non-degeneracy, 6-word variants. -/
theorem clock6_preserves (a b c : Nat) (xc : Bool) (ha : 0 < a) (hb : 0 < b)
    (s0 s1 s2 s3 s4 s5 : Nat) (h4 : s4 < W32)
    (hnz : ¬ Xorwowgen.regAllZero 6 [s0, s1, s2, s3, s4, s5]) :
    ¬ Xorwowgen.regAllZero 6
      (Xorwowgen.clock ⟨6, a, b, c, xc⟩ [s0, s1, s2, s3, s4, s5]) := by
  rw [clock6_eq]
  intro hz
  have hz' : ∀ x ∈ [Xorwowgen.xorshift32 a b c s4 s0, s0, s1, s2, s3], x = 0 := hz
  have h0 : s0 = 0 := hz' s0 (by simp)
  have h1 : s1 = 0 := hz' s1 (by simp)
  have h2 : s2 = 0 := hz' s2 (by simp)
  have h3 : s3 = 0 := hz' s3 (by simp)
  have hT : Xorwowgen.xorshift32 a b c s4 s0 = 0 := hz' _ (by simp)
  rw [h0] at hT
  have h4' : s4 = 0 := xorshift32_eq_zero ha hb h4 hT
  apply hnz
  intro x hx
  have hx' : x ∈ [s0, s1, s2, s3, s4] := hx
  simp only [List.mem_cons, List.not_mem_nil, or_false] at hx'
  rcases hx' with rfl | rfl | rfl | rfl | rfl
  · exact h0
  · exact h1
  · exact h2
  · exact h3
  · exact h4'

/-- The 64-bit single-word transform (`<< a`, `>> b`, `<< c`) sends only
`0` to `0`. -/
theorem clock64_reg_eq_zero {a b c x : Nat} (ha : 0 < a) (hb : 0 < b)
    (hc : 0 < c) (hx : x < 2 ^ 64)
    (h : ((x ^^^ shl64 x a) ^^^ ((x ^^^ shl64 x a) >>> b)) ^^^
      shl64 ((x ^^^ shl64 x a) ^^^ ((x ^^^ shl64 x a) >>> b)) c = 0) :
    x = 0 := by
  have hs : ∀ z n : Nat, shl64 z n = (z <<< n) % 2 ^ 64 := fun _ _ => rfl
  have ha1 : x ^^^ shl64 x a < 2 ^ 64 := by
    rw [hs]
    exact Nat.xor_lt_two_pow hx (Nat.mod_lt _ (by norm_num))
  have ha2 : (x ^^^ shl64 x a) ^^^ ((x ^^^ shl64 x a) >>> b) < 2 ^ 64 :=
    Nat.xor_lt_two_pow ha1 (lt_of_le_of_lt (shiftRight_self_le _ b) ha1)
  rw [hs] at h
  have h2 : (x ^^^ shl64 x a) ^^^ ((x ^^^ shl64 x a) >>> b) = 0 :=
    xor_shl_mod_eq_zero hc ha2 h
  have h1 : x ^^^ shl64 x a = 0 := xor_shr_eq_zero hb h2
  rw [hs] at h1
  exact xor_shl_mod_eq_zero ha hx h1

/-- The 128-bit double-word transform with `b = 0` (`<< a`, `>> b`, then
a vanishing third step) sends only `0` to `0`. -/
theorem xorshift128_x_eq_zero {a b c x : Nat} (ha : 0 < a) (hb : 0 < b)
    (hx : x < 2 ^ 64)
    (h : Xorwow128.xorshift128 (a, b, c) x 0 = 0) : x = 0 := by
  have h' : (x ^^^ shl64 x a) ^^^ ((x ^^^ shl64 x a) >>> b) = 0 := by
    have hrw : Xorwow128.xorshift128 (a, b, c) x 0 =
        ((x ^^^ shl64 x a) ^^^ ((x ^^^ shl64 x a) >>> b)) ^^^
          (0 ^^^ (0 >>> c)) := rfl
    rw [hrw] at h
    simpa using h
  have h1 : x ^^^ shl64 x a = 0 := xor_shr_eq_zero hb h'
  have hs : shl64 x a = (x <<< a) % 2 ^ 64 := rfl
  rw [hs] at h1
  exact xor_shl_mod_eq_zero ha hx h1

/-- `xorwow64::from_seed` always returns a nonzero register word. -/
theorem from_seed64_fst_ne_zero (bytes : List Nat) :
    (Xorwow64.from_seed bytes).1 ≠ 0 := by
  unfold Xorwow64.from_seed
  dsimp only
  split
  · exact (by decide : mask64 ≠ 0)
  · assumption

/-- `xorwow64::seed_from_u64` always returns a nonzero register word. -/
theorem seed64_fst_ne_zero (seed : Nat) :
    (Xorwow64.seed_from_u64 seed).1 ≠ 0 := by
  unfold Xorwow64.seed_from_u64
  dsimp only
  split
  · exact (by decide : mask64 ≠ 0)
  · assumption

/-- `xorwow128::from_seed` never returns both register words zero. -/
theorem from_seed128_not_both_zero (bytes : List Nat) :
    ¬ ((Xorwow128.from_seed bytes).1 = 0 ∧
      (Xorwow128.from_seed bytes).2.1 = 0) := by
  unfold Xorwow128.from_seed
  dsimp only
  split
  · rintro ⟨h, -⟩
    have h' : mask64 = 0 := h
    exact absurd h' (by decide)
  · assumption

/-- `xorwow128::seed_from_u64` never returns both register words zero. -/
theorem seed128_not_both_zero (seed : Nat) :
    ¬ ((Xorwow128.seed_from_u64 seed).1 = 0 ∧
      (Xorwow128.seed_from_u64 seed).2.1 = 0) := by
  unfold Xorwow128.seed_from_u64
  dsimp only
  split
  · rintro ⟨h, -⟩
    exact absurd h (by decide)
  · rintro ⟨-, h⟩
    exact absurd h (by assumption)

/-- Clock preservation on the 64-bit single-word variants. -/
theorem clock64_preserves (cfg : Xorwow64.Cfg64) (ha : 0 < cfg.a)
    (hb : 0 < cfg.b) (hc : 0 < cfg.c) (s : Nat × Nat) (hx : s.1 < W64)
    (hnz : s.1 ≠ 0) : (Xorwow64.clock cfg s).1 ≠ 0 := by
  intro h
  exact hnz (clock64_reg_eq_zero ha hb hc hx h)

/-- Clock preservation on the 128-bit double-word variants. -/
theorem clock128_preserves (cfg : Xorwow128.Cfg128) (ha : 0 < cfg.a)
    (hb : 0 < cfg.b) (s : Nat × Nat × Nat) (hx : s.1 < W64)
    (hnz : ¬ (s.1 = 0 ∧ s.2.1 = 0)) :
    ¬ ((Xorwow128.clock cfg s).1 = 0 ∧ (Xorwow128.clock cfg s).2.1 = 0) := by
  rintro ⟨h1, h2⟩
  have hb0 : s.2.1 = 0 := h1
  have hT : Xorwow128.xorshift128 (cfg.a, cfg.b, cfg.c) s.1 s.2.1 = 0 := h2
  rw [hb0] at hT
  exact hnz ⟨xorshift128_x_eq_zero ha hb hx hT, hb0⟩

/-- C2: for every variant, both seeding entry points return a state
whose non-counter words are not all zero — for every seed byte buffer
(including all-zero) and every u64 seed (including 0) — and for every
well-formed state whose non-counter words are not all zero, `clock`
yields a state whose non-counter words are again not all zero:
non-degeneracy is established at seed time and preserved by every
clock. -/
theorem C2_nondegeneracy :
    (∀ cfg ∈ [Xorwowgen.Xorwow96, Xorwowgen.Xorwow128, Xorwowgen.Xorwow160,
        Xorwowgen.XorwowXor96, Xorwowgen.XorwowXor128, Xorwowgen.XorwowXor160],
      (∀ bytes : List Nat,
        ¬ Xorwowgen.regAllZero cfg.nr (Xorwowgen.from_seed cfg bytes)) ∧
      (∀ seed : Nat,
        ¬ Xorwowgen.regAllZero cfg.nr (Xorwowgen.seed_from_u64 cfg seed)) ∧
      (∀ s : List Nat, s.length = cfg.nr → (∀ x ∈ s, x < W32) →
        ¬ Xorwowgen.regAllZero cfg.nr s →
        ¬ Xorwowgen.regAllZero cfg.nr (Xorwowgen.clock cfg s))) ∧
    (∀ cfg ∈ [Xorwow64.WrapA, Xorwow64.WrapB, Xorwow64.XorA, Xorwow64.XorB],
      (∀ bytes : List Nat, (Xorwow64.from_seed bytes).1 ≠ 0) ∧
      (∀ seed : Nat, (Xorwow64.seed_from_u64 seed).1 ≠ 0) ∧
      (∀ s : Nat × Nat, s.1 < W64 → s.1 ≠ 0 →
        (Xorwow64.clock cfg s).1 ≠ 0)) ∧
    (∀ cfg ∈ [Xorwow128.LargeWrap, Xorwow128.LargeXor],
      (∀ bytes : List Nat, ¬ ((Xorwow128.from_seed bytes).1 = 0 ∧
        (Xorwow128.from_seed bytes).2.1 = 0)) ∧
      (∀ seed : Nat, ¬ ((Xorwow128.seed_from_u64 seed).1 = 0 ∧
        (Xorwow128.seed_from_u64 seed).2.1 = 0)) ∧
      (∀ s : Nat × Nat × Nat, s.1 < W64 → ¬ (s.1 = 0 ∧ s.2.1 = 0) →
        ¬ ((Xorwow128.clock cfg s).1 = 0 ∧
          (Xorwow128.clock cfg s).2.1 = 0))) := by
  refine ⟨?_, ?_, ?_⟩
  · intro cfg hcfg
    simp only [List.mem_cons, List.not_mem_nil, or_false] at hcfg
    have main4 : ∀ a b c : Nat, ∀ xc : Bool, 0 < a → 0 < b →
        (∀ bytes : List Nat, ¬ Xorwowgen.regAllZero 4
          (Xorwowgen.from_seed ⟨4, a, b, c, xc⟩ bytes)) ∧
        (∀ seed : Nat, ¬ Xorwowgen.regAllZero 4
          (Xorwowgen.seed_from_u64 ⟨4, a, b, c, xc⟩ seed)) ∧
        (∀ s : List Nat, s.length = 4 → (∀ x ∈ s, x < W32) →
          ¬ Xorwowgen.regAllZero 4 s →
          ¬ Xorwowgen.regAllZero 4 (Xorwowgen.clock ⟨4, a, b, c, xc⟩ s)) := by
      intro a b c xc ha hb
      refine ⟨fun bytes => from_words_not_allZero (by norm_num) _, ?_, ?_⟩
      · intro seed
        rw [seed4_eq]
        intro hz
        have hz' : ∀ x ∈ [seed % W32, not32 (seed % W32),
            (seed >>> 32) % W32], x = 0 := hz
        exact lo_not_lo_ne_zero seed ⟨hz' _ (by simp), hz' _ (by simp)⟩
      · intro s hlen hbound hnz
        obtain ⟨s0, s1, s2, s3, rfl⟩ := exists_list4 s hlen
        exact clock4_preserves a b c xc ha hb s0 s1 s2 s3
          (hbound s2 (by simp)) hnz
    have main5 : ∀ a b c : Nat, ∀ xc : Bool, 0 < a → 0 < b →
        (∀ bytes : List Nat, ¬ Xorwowgen.regAllZero 5
          (Xorwowgen.from_seed ⟨5, a, b, c, xc⟩ bytes)) ∧
        (∀ seed : Nat, ¬ Xorwowgen.regAllZero 5
          (Xorwowgen.seed_from_u64 ⟨5, a, b, c, xc⟩ seed)) ∧
        (∀ s : List Nat, s.length = 5 → (∀ x ∈ s, x < W32) →
          ¬ Xorwowgen.regAllZero 5 s →
          ¬ Xorwowgen.regAllZero 5 (Xorwowgen.clock ⟨5, a, b, c, xc⟩ s)) := by
      intro a b c xc ha hb
      refine ⟨fun bytes => from_words_not_allZero (by norm_num) _, ?_, ?_⟩
      · intro seed
        rw [seed5_eq]
        intro hz
        have hz' : ∀ x ∈ [seed % W32, not32 (seed % W32), (seed >>> 32) % W32,
            not32 ((seed >>> 32) % W32)], x = 0 := hz
        exact lo_not_lo_ne_zero seed ⟨hz' _ (by simp), hz' _ (by simp)⟩
      · intro s hlen hbound hnz
        obtain ⟨s0, t, rfl, hlen4⟩ := exists_list5 s hlen
        obtain ⟨s1, s2, s3, s4, rfl⟩ := exists_list4 t hlen4
        exact clock5_preserves a b c xc ha hb s0 s1 s2 s3 s4
          (hbound s3 (by simp)) hnz
    have main6 : ∀ a b c : Nat, ∀ xc : Bool, 0 < a → 0 < b →
        (∀ bytes : List Nat, ¬ Xorwowgen.regAllZero 6
          (Xorwowgen.from_seed ⟨6, a, b, c, xc⟩ bytes)) ∧
        (∀ seed : Nat, ¬ Xorwowgen.regAllZero 6
          (Xorwowgen.seed_from_u64 ⟨6, a, b, c, xc⟩ seed)) ∧
        (∀ s : List Nat, s.length = 6 → (∀ x ∈ s, x < W32) →
          ¬ Xorwowgen.regAllZero 6 s →
          ¬ Xorwowgen.regAllZero 6 (Xorwowgen.clock ⟨6, a, b, c, xc⟩ s)) := by
      intro a b c xc ha hb
      refine ⟨fun bytes => from_words_not_allZero (by norm_num) _, ?_, ?_⟩
      · intro seed
        rw [seed6_eq]
        intro hz
        have hz' : ∀ x ∈ [seed % W32, not32 (seed % W32), (seed >>> 32) % W32,
            not32 ((seed >>> 32) % W32), seed % W32], x = 0 := hz
        exact lo_not_lo_ne_zero seed ⟨hz' _ (by simp), hz' _ (by simp)⟩
      · intro s hlen hbound hnz
        obtain ⟨s0, t, rfl, hlen5⟩ := exists_list6 s hlen
        obtain ⟨s1, t, rfl, hlen4⟩ := exists_list5 t hlen5
        obtain ⟨s2, s3, s4, s5, rfl⟩ := exists_list4 t hlen4
        exact clock6_preserves a b c xc ha hb s0 s1 s2 s3 s4 s5
          (hbound s4 (by simp)) hnz
    rcases hcfg with h | h | h | h | h | h
    · exact h ▸ main4 10 5 26 false (by norm_num) (by norm_num)
    · exact h ▸ main5 5 14 1 false (by norm_num) (by norm_num)
    · exact h ▸ main6 2 1 4 false (by norm_num) (by norm_num)
    · exact h ▸ main4 10 5 26 true (by norm_num) (by norm_num)
    · exact h ▸ main5 5 14 1 true (by norm_num) (by norm_num)
    · exact h ▸ main6 2 1 4 true (by norm_num) (by norm_num)
  · intro cfg hcfg
    simp only [List.mem_cons, List.not_mem_nil, or_false] at hcfg
    refine ⟨from_seed64_fst_ne_zero, seed64_fst_ne_zero, ?_⟩
    intro s hx hnz
    rcases hcfg with h | h | h | h <;>
      (subst h; exact clock64_preserves _ (by decide) (by decide)
        (by decide) s hx hnz)
  · intro cfg hcfg
    simp only [List.mem_cons, List.not_mem_nil, or_false] at hcfg
    refine ⟨from_seed128_not_both_zero, seed128_not_both_zero, ?_⟩
    intro s hx hnz
    rcases hcfg with h | h <;>
      (subst h; exact clock128_preserves _ (by decide) (by decide) s hx hnz)

/-- Witness for C2: clock preservation on `Xorwow160` at an explicit
nonzero state. -/
theorem C2_nondegeneracy_witness :
    ¬ Xorwowgen.regAllZero 6
      (Xorwowgen.clock Xorwowgen.Xorwow160 [1, 0, 0, 0, 0, 0]) :=
  (C2_nondegeneracy.1 Xorwowgen.Xorwow160 (by simp)).2.2
    [1, 0, 0, 0, 0, 0] rfl (by decide) (by decide)

/-- `read_u32_words` produces one word per four bytes. -/
theorem read_u32_words_length : ∀ bytes : List Nat,
    (Xorwowgen.read_u32_words bytes).length = bytes.length / 4
  | [] => rfl
  | [b] => by
      rw [show Xorwowgen.read_u32_words [b] = [] from rfl]
      simp
  | [b, b'] => by
      rw [show Xorwowgen.read_u32_words [b, b'] = [] from rfl]
      simp
  | [b, b', b''] => by
      rw [show Xorwowgen.read_u32_words [b, b', b''] = [] from rfl]
      simp
  | b0 :: b1 :: b2 :: b3 :: rest => by
      have ih := read_u32_words_length rest
      rw [show Xorwowgen.read_u32_words (b0 :: b1 :: b2 :: b3 :: rest) =
        (b0 + 256 * b1 + 65536 * b2 + 16777216 * b3) ::
          Xorwowgen.read_u32_words rest from rfl]
      simp only [List.length_cons, ih]
      omega

/-- A list of length `n + 1` dropped at `n` is its last element. -/
theorem drop_eq_getD_singleton : ∀ (l : List Nat) (n : Nat),
    l.length = n + 1 → l.drop n = [l.getD n 0]
  | a :: t, 0, h => by
      simp only [List.length_cons, Nat.succ_inj] at h
      rw [List.length_eq_zero.mp h]
      rfl
  | a :: t, n + 1, h => by
      have ht : t.length = n + 1 := by simpa using h
      simpa using drop_eq_getD_singleton t n ht
  | [], n, h => by simp at h

/-- `from_words`, zero branch. -/
theorem from_words_pos {nr : Nat} (st : List Nat)
    (h : Xorwowgen.regAllZero nr st) :
    Xorwowgen.from_words nr st =
      List.replicate (nr - 1) mask32 ++ st.drop (nr - 1) := by
  unfold Xorwowgen.from_words
  rw [if_pos]
  rw [List.all_eq_true]
  intro x hx
  exact beq_iff_eq.mpr (h x hx)

/-- `from_words`, verbatim branch. -/
theorem from_words_neg {nr : Nat} (st : List Nat)
    (h : ¬ Xorwowgen.regAllZero nr st) :
    Xorwowgen.from_words nr st = st := by
  unfold Xorwowgen.from_words
  rw [if_neg]
  intro hall
  apply h
  intro x hx
  exact beq_iff_eq.mp (List.all_eq_true.mp hall x hx)

/-- C6: for every variant and every seed byte buffer of exactly
`R * (W/8)` bytes, `from_seed` interprets the buffer as `R`
little-endian words; if the `R - 1` non-counter words so read are all
zero, every one of them is replaced by the all-ones word while the
counter word keeps its buffer value verbatim (zero included); otherwise
all `R` words are taken verbatim.  The first two conjuncts pin down the
little-endian word reading; the remaining conjuncts give the complete
branch behaviour per family. -/
theorem C6_from_seed_correct :
    (∀ b0 b1 b2 b3 : Nat, ∀ rest : List Nat,
      Xorwowgen.read_u32_words (b0 :: b1 :: b2 :: b3 :: rest) =
        (b0 + 2 ^ 8 * b1 + 2 ^ 16 * b2 + 2 ^ 24 * b3) ::
          Xorwowgen.read_u32_words rest) ∧
    (∀ b0 b1 b2 b3 b4 b5 b6 b7 : Nat, ∀ rest : List Nat,
      Xorwow64.read_u64_words
          (b0 :: b1 :: b2 :: b3 :: b4 :: b5 :: b6 :: b7 :: rest) =
        (b0 + 2 ^ 8 * b1 + 2 ^ 16 * b2 + 2 ^ 24 * b3 + 2 ^ 32 * b4 +
            2 ^ 40 * b5 + 2 ^ 48 * b6 + 2 ^ 56 * b7) ::
          Xorwow64.read_u64_words rest) ∧
    (∀ cfg ∈ [Xorwowgen.Xorwow96, Xorwowgen.Xorwow128, Xorwowgen.Xorwow160,
        Xorwowgen.XorwowXor96, Xorwowgen.XorwowXor128, Xorwowgen.XorwowXor160],
      ∀ bytes : List Nat, bytes.length = 4 * cfg.nr →
      (Xorwowgen.regAllZero cfg.nr (Xorwowgen.read_u32_words bytes) →
        Xorwowgen.from_seed cfg bytes =
          List.replicate (cfg.nr - 1) mask32 ++
            [(Xorwowgen.read_u32_words bytes).getD (cfg.nr - 1) 0]) ∧
      (¬ Xorwowgen.regAllZero cfg.nr (Xorwowgen.read_u32_words bytes) →
        Xorwowgen.from_seed cfg bytes = Xorwowgen.read_u32_words bytes)) ∧
    (∀ bytes : List Nat, bytes.length = 16 →
      ((Xorwow64.read_u64_words bytes).getD 0 0 = 0 →
        Xorwow64.from_seed bytes =
          (mask64, (Xorwow64.read_u64_words bytes).getD 1 0)) ∧
      ((Xorwow64.read_u64_words bytes).getD 0 0 ≠ 0 →
        Xorwow64.from_seed bytes =
          ((Xorwow64.read_u64_words bytes).getD 0 0,
            (Xorwow64.read_u64_words bytes).getD 1 0))) ∧
    (∀ bytes : List Nat, bytes.length = 24 →
      ((Xorwow64.read_u64_words bytes).getD 0 0 = 0 ∧
          (Xorwow64.read_u64_words bytes).getD 1 0 = 0 →
        Xorwow128.from_seed bytes =
          (mask64, mask64, (Xorwow64.read_u64_words bytes).getD 2 0)) ∧
      (¬ ((Xorwow64.read_u64_words bytes).getD 0 0 = 0 ∧
          (Xorwow64.read_u64_words bytes).getD 1 0 = 0) →
        Xorwow128.from_seed bytes =
          ((Xorwow64.read_u64_words bytes).getD 0 0,
            (Xorwow64.read_u64_words bytes).getD 1 0,
            (Xorwow64.read_u64_words bytes).getD 2 0))) := by
  refine ⟨fun _ _ _ _ _ => rfl, fun _ _ _ _ _ _ _ _ _ => rfl, ?_, ?_, ?_⟩
  · intro cfg hcfg bytes hlen
    simp only [List.mem_cons, List.not_mem_nil, or_false] at hcfg
    have main : ∀ nr : Nat, 1 ≤ nr → bytes.length = 4 * nr →
        (Xorwowgen.regAllZero nr (Xorwowgen.read_u32_words bytes) →
          Xorwowgen.from_words nr (Xorwowgen.read_u32_words bytes) =
            List.replicate (nr - 1) mask32 ++
              [(Xorwowgen.read_u32_words bytes).getD (nr - 1) 0]) ∧
        (¬ Xorwowgen.regAllZero nr (Xorwowgen.read_u32_words bytes) →
          Xorwowgen.from_words nr (Xorwowgen.read_u32_words bytes) =
            Xorwowgen.read_u32_words bytes) := by
      intro nr h1 hlen'
      have hwlen : (Xorwowgen.read_u32_words bytes).length = nr := by
        rw [read_u32_words_length, hlen']
        omega
      constructor
      · intro hz
        rw [from_words_pos _ hz,
          drop_eq_getD_singleton _ (nr - 1) (by omega)]
      · intro hz
        exact from_words_neg _ hz
    rcases hcfg with h | h | h | h | h | h <;>
      (subst h; exact main _ (by decide) hlen)
  · intro bytes hlen
    constructor
    · intro h0
      unfold Xorwow64.from_seed
      dsimp only
      rw [if_pos h0]
    · intro h0
      unfold Xorwow64.from_seed
      dsimp only
      rw [if_neg h0]
  · intro bytes hlen
    constructor
    · intro h0
      unfold Xorwow128.from_seed
      dsimp only
      rw [if_pos h0]
    · intro h0
      unfold Xorwow128.from_seed
      dsimp only
      rw [if_neg h0]

/-- Witness for C6: the all-zero 16-byte buffer on `Xorwow96` triggers
the all-ones replacement, the counter staying `0`. -/
theorem C6_from_seed_correct_witness :
    Xorwowgen.from_seed Xorwowgen.Xorwow96 (List.replicate 16 0) =
      List.replicate 3 mask32 ++
        [(Xorwowgen.read_u32_words (List.replicate 16 0)).getD 3 0] :=
  (C6_from_seed_correct.2.2.1 Xorwowgen.Xorwow96 (by simp)
    (List.replicate 16 0) (by decide)).1 (by decide)

/-- The xorwow transform vanishes on the all-zero input. -/
theorem xorshift32_zero_zero (a b c : Nat) :
    Xorwowgen.xorshift32 a b c 0 0 = 0 := by
  simp [Xorwowgen.xorshift32, shl32]

/-- Stepping the Weyl counter from `(k * 362437) % 2^32` lands on
`((k + 1) * 362437) % 2^32`. -/
theorem wadd32_weyl_step (k : Nat) :
    wadd32 (k * 362437 % W32) 362437 = (k + 1) * 362437 % W32 := by
  unfold wadd32
  rw [Nat.mod_add_mod, Nat.succ_mul]

/-- Combining `0` with an in-range counter returns the counter for both
combine operators. -/
theorem combine32_zero_left (xc : Bool) (v : Nat) (hv : v < W32) :
    Xorwowgen.combine32 xc 0 v = v := by
  cases xc <;> simp [Xorwowgen.combine32, wadd32, Nat.mod_eq_of_lt hv]

/-- Iterating `next_u32` from the all-zero 4-word state keeps the
register zero and walks the counter along the Weyl sequence. -/
theorem iter_default4 (a b c : Nat) (xc : Bool) (k : Nat) :
    (fun s => (Xorwowgen.next_u32 ⟨4, a, b, c, xc⟩ s).2)^[k]
        (Xorwowgen.default32 ⟨4, a, b, c, xc⟩) =
      [0, 0, 0, k * 362437 % W32] := by
  induction k with
  | zero => rfl
  | succ n ih =>
      rw [Function.iterate_succ_apply', ih]
      show Xorwowgen.clock ⟨4, a, b, c, xc⟩ [0, 0, 0, n * 362437 % W32] =
        [0, 0, 0, (n + 1) * 362437 % W32]
      rw [clock4_eq, xorshift32_zero_zero, wadd32_weyl_step]

/-- Iterating `next_u32` from the all-zero 5-word state. -/
theorem iter_default5 (a b c : Nat) (xc : Bool) (k : Nat) :
    (fun s => (Xorwowgen.next_u32 ⟨5, a, b, c, xc⟩ s).2)^[k]
        (Xorwowgen.default32 ⟨5, a, b, c, xc⟩) =
      [0, 0, 0, 0, k * 362437 % W32] := by
  induction k with
  | zero => rfl
  | succ n ih =>
      rw [Function.iterate_succ_apply', ih]
      show Xorwowgen.clock ⟨5, a, b, c, xc⟩ [0, 0, 0, 0, n * 362437 % W32] =
        [0, 0, 0, 0, (n + 1) * 362437 % W32]
      rw [clock5_eq, xorshift32_zero_zero, wadd32_weyl_step]

/-- Iterating `next_u32` from the all-zero 6-word state. -/
theorem iter_default6 (a b c : Nat) (xc : Bool) (k : Nat) :
    (fun s => (Xorwowgen.next_u32 ⟨6, a, b, c, xc⟩ s).2)^[k]
        (Xorwowgen.default32 ⟨6, a, b, c, xc⟩) =
      [0, 0, 0, 0, 0, k * 362437 % W32] := by
  induction k with
  | zero => rfl
  | succ n ih =>
      rw [Function.iterate_succ_apply', ih]
      show Xorwowgen.clock ⟨6, a, b, c, xc⟩ [0, 0, 0, 0, 0, n * 362437 % W32] =
        [0, 0, 0, 0, 0, (n + 1) * 362437 % W32]
      rw [clock6_eq, xorshift32_zero_zero, wadd32_weyl_step]

/-- C10: every 32-bit-word variant derives a `Default` constructor whose
state is all-zero, violating non-degeneracy; from this state every
`clock` leaves all register words zero, so the `next_u32` stream
degenerates to the bare Weyl counter sequence: after `k` calls the state
is still all-zero apart from the counter `k * 362437 mod 2^32`, and the
`(k+1)`-st output is `(k+1) * 362437 mod 2^32`, for the addition-combine
and XOR-combine variants alike. -/
theorem C10_default_degenerate :
    ∀ cfg ∈ [Xorwowgen.Xorwow96, Xorwowgen.Xorwow128, Xorwowgen.Xorwow160,
        Xorwowgen.XorwowXor96, Xorwowgen.XorwowXor128, Xorwowgen.XorwowXor160],
      ∀ k : Nat,
        (fun s => (Xorwowgen.next_u32 cfg s).2)^[k]
            (Xorwowgen.default32 cfg) =
          List.replicate (cfg.nr - 1) 0 ++ [k * 362437 % W32] ∧
        (Xorwowgen.next_u32 cfg
            ((fun s => (Xorwowgen.next_u32 cfg s).2)^[k]
              (Xorwowgen.default32 cfg))).1 = (k + 1) * 362437 % W32 := by
  intro cfg hcfg k
  simp only [List.mem_cons, List.not_mem_nil, or_false] at hcfg
  have hW : 0 < W32 := by norm_num [W32]
  have out4 : ∀ a b c : Nat, ∀ xc : Bool,
      (Xorwowgen.next_u32 ⟨4, a, b, c, xc⟩
          ((fun s => (Xorwowgen.next_u32 ⟨4, a, b, c, xc⟩ s).2)^[k]
            (Xorwowgen.default32 ⟨4, a, b, c, xc⟩))).1 =
        (k + 1) * 362437 % W32 := by
    intro a b c xc
    rw [iter_default4]
    show Xorwowgen.combine32 xc
      ((Xorwowgen.clock ⟨4, a, b, c, xc⟩ [0, 0, 0, k * 362437 % W32]).getD 0 0)
      ((Xorwowgen.clock ⟨4, a, b, c, xc⟩
        [0, 0, 0, k * 362437 % W32]).getD 3 0) = _
    rw [clock4_eq, xorshift32_zero_zero, wadd32_weyl_step]
    exact combine32_zero_left xc _ (Nat.mod_lt _ hW)
  have out5 : ∀ a b c : Nat, ∀ xc : Bool,
      (Xorwowgen.next_u32 ⟨5, a, b, c, xc⟩
          ((fun s => (Xorwowgen.next_u32 ⟨5, a, b, c, xc⟩ s).2)^[k]
            (Xorwowgen.default32 ⟨5, a, b, c, xc⟩))).1 =
        (k + 1) * 362437 % W32 := by
    intro a b c xc
    rw [iter_default5]
    show Xorwowgen.combine32 xc
      ((Xorwowgen.clock ⟨5, a, b, c, xc⟩
        [0, 0, 0, 0, k * 362437 % W32]).getD 0 0)
      ((Xorwowgen.clock ⟨5, a, b, c, xc⟩
        [0, 0, 0, 0, k * 362437 % W32]).getD 4 0) = _
    rw [clock5_eq, xorshift32_zero_zero, wadd32_weyl_step]
    exact combine32_zero_left xc _ (Nat.mod_lt _ hW)
  have out6 : ∀ a b c : Nat, ∀ xc : Bool,
      (Xorwowgen.next_u32 ⟨6, a, b, c, xc⟩
          ((fun s => (Xorwowgen.next_u32 ⟨6, a, b, c, xc⟩ s).2)^[k]
            (Xorwowgen.default32 ⟨6, a, b, c, xc⟩))).1 =
        (k + 1) * 362437 % W32 := by
    intro a b c xc
    rw [iter_default6]
    show Xorwowgen.combine32 xc
      ((Xorwowgen.clock ⟨6, a, b, c, xc⟩
        [0, 0, 0, 0, 0, k * 362437 % W32]).getD 0 0)
      ((Xorwowgen.clock ⟨6, a, b, c, xc⟩
        [0, 0, 0, 0, 0, k * 362437 % W32]).getD 5 0) = _
    rw [clock6_eq, xorshift32_zero_zero, wadd32_weyl_step]
    exact combine32_zero_left xc _ (Nat.mod_lt _ hW)
  rcases hcfg with h | h | h | h | h | h <;> subst h
  · exact ⟨iter_default4 10 5 26 false k, out4 10 5 26 false⟩
  · exact ⟨iter_default5 5 14 1 false k, out5 5 14 1 false⟩
  · exact ⟨iter_default6 2 1 4 false k, out6 2 1 4 false⟩
  · exact ⟨iter_default4 10 5 26 true k, out4 10 5 26 true⟩
  · exact ⟨iter_default5 5 14 1 true k, out5 5 14 1 true⟩
  · exact ⟨iter_default6 2 1 4 true k, out6 2 1 4 true⟩

/-- Witness for C10: after two `next_u32` calls from the derived default
of `Xorwow96`, the third output is `3 * 362437`. -/
theorem C10_default_degenerate_witness :
    (Xorwowgen.next_u32 Xorwowgen.Xorwow96
        ((fun s => (Xorwowgen.next_u32 Xorwowgen.Xorwow96 s).2)^[2]
          (Xorwowgen.default32 Xorwowgen.Xorwow96))).1 =
      (2 + 1) * 362437 % W32 :=
  (C10_default_degenerate Xorwowgen.Xorwow96 (by simp) 2).2
